import Mathlib

/-!
Shallow embedding of the `dostuff` declarative configuration runner
(`src/dostuff/commands.py` together with the engine loop of `src/test.py`).

The Python-side mutable class-level state (the `Package` accumulator and the
`lru_cache`d coroutine of `Package.do`) is modelled by explicit state
passing; Python exceptions raised inside an `execute`/`do` body are
modelled with `Except PyErr`; the host-action shim `run(*args)` is
modelled by recording the argv lists a `do` body passes to it, in order
(a trace `List (List String)`); an implicit `return None` is modelled as
`Option.none`.
-/

deriving instance DecidableEq for Except

namespace Dostuff

/-- Result model, commands.py lines 9-10:
`Ok` is a namedtuple with field `changed`, `Error` one with field `reason`. -/
inductive Result where
  | Ok : Bool → Result
  | Error : String → Result
  deriving DecidableEq, Repr

/-- The runtime exceptions the command bodies can raise. -/
inductive PyErr where
  /-- commands.py line 59 reads the unbound name `reason`. -/
  | nameErrorReason
  /-- commands.py line 140 reads `.changed` off a value that has no such field. -/
  | attributeErrorChanged
  /-- awaiting a coroutine object that was already awaited. -/
  | runtimeErrorReuse
  /-- a failed `assert` statement. -/
  | assertionError
  deriving DecidableEq, Repr

/-- Model of a `pathlib.Path` value: the anchor flag plus the normalised
component list (pathlib drops empty and `.` components). -/
structure PyPath where
  absolute : Bool
  parts : List String
  deriving DecidableEq, Repr

/-- Split a character list at `/` separators (the semantics of
the Python string split method with separator `/`, character by character). -/
def splitSlashes : List Char → List (List Char)
  | [] => [[]]
  | c :: rest =>
    let r := splitSlashes rest
    if c = '/' then [] :: r
    else match r with
      | [] => [[c]]
      | g :: gs => (c :: g) :: gs

/-- `pathlib.Path(s)` for a POSIX path string: anchored iff the string
starts with `/`; the components are the slash-separated pieces with empty
and `.` pieces dropped (the pathlib normalisation). -/
def parsePath (s : String) : PyPath :=
  { absolute := match s.toList with
      | '/' :: _ => true
      | _ => false
    parts := ((splitSlashes s.toList).map String.mk).filter fun t => t ≠ "" ∧ t ≠ "." }

/-- `Path.name`: the final component, `""` when there is none. -/
def PyPath.name (p : PyPath) : String :=
  p.parts.getLast?.getD ""

/-- Join path components with `/`. -/
def intercalateSlash : List String → String
  | [] => ""
  | [t] => t
  | t :: rest => t ++ "/" ++ intercalateSlash rest

/-- `str(Path)`: the normalised pathlib rendering. -/
def PyPath.str (p : PyPath) : String :=
  if p.absolute then "/" ++ intercalateSlash p.parts
  else if p.parts = [] then "." else intercalateSlash p.parts

/-- The `Nothing` command (commands.py lines 43-45): its `do` body is
`pass`, i.e. it returns `None` — no `Result` value at all. -/
structure Nothing where
  deriving DecidableEq, Repr

/-- `Nothing.do` (commands.py lines 44-45): `pass` returns `None`. -/
def Nothing.execute : Except PyErr (Option Result) :=
  .ok none

/-- The fields of the `Check` command (commands.py lines 49-52); `exists` is a
`Path` when the argument was given, otherwise `None`. -/
structure Check where
  existsPath : Option PyPath
  reason : Option String
  deriving DecidableEq, Repr

/-- `Check.__init__` (commands.py lines 49-52). -/
def Check.init (e : Option String) (reason : Option String) : Check :=
  { existsPath := e.map parsePath, reason := reason }

/-- `Check.do` (commands.py lines 54-59), parametrised by the host
path-existence predicate.  A `Path` object is always truthy, so the outer
branch is taken exactly when a path was declared; the inner `else` branch
is `return Error(reason)`, which reads the unbound local name `reason`
(not `self.reason`) and therefore raises `NameError`.  With no declared
path the body falls through and returns `None`. -/
def Check.execute (c : Check) (pathExists : PyPath → Bool) :
    Except PyErr (Option Result) :=
  match c.existsPath with
  | some p => if pathExists p then .ok (some (Result.Ok false)) else .error .nameErrorReason
  | none => .ok none

/-- `Check.validate` (commands.py lines 61-63): reports a problem iff no
path was declared.  `some msg` models `raise ValidationError(msg)`. -/
def Check.validate (c : Check) : Option String :=
  match c.existsPath with
  | some _ => none
  | none => some "--exists was not specified"

/-- The fields of the `File` command (commands.py lines 66-74). -/
structure File where
  destination : PyPath
  source : PyPath
  deriving DecidableEq, Repr

/-- `File.__init__` (commands.py lines 67-74): convert `destination` to a
`Path`, `assert` it is absolute, then default `source` to the
base name of the destination. -/
def File.init (destination : String) (source : Option String) :
    Except PyErr File :=
  let dest := parsePath destination
  if dest.absolute then
    .ok { destination := dest
          source := match source with
            | none => parsePath dest.name
            | some s => parsePath s }
  else .error .assertionError

/-- `File.do` (commands.py lines 76-83): after an artificial delay (no
observable effect here) invoke the shim with `cp <source> <destination>`
and report `Ok(changed=True)`. -/
def File.execute (f : File) : List (List String) × Result :=
  ([["cp", f.source.str, f.destination.str]], Result.Ok true)

/-- The fields of the `User` command (commands.py lines 149-154). -/
structure User where
  name : String
  homedir : Bool
  system : Bool
  deriving DecidableEq, Repr

/-- `User.do` (commands.py lines 156-167): build the flag list and invoke
the shim with `useradd <args> <name>`; report `Ok(changed=False)`. -/
def User.execute (u : User) : List (List String) × Result :=
  ([["useradd"] ++ (if u.homedir then ["--create-home"] else [])
      ++ (if u.system then ["--system"] else []) ++ [u.name]],
   Result.Ok false)

/-- The process-wide `Package.packages` accumulator (commands.py lines
88-91): one name set per action key. -/
structure PkgSets where
  install : Finset String
  remove : Finset String
  deriving DecidableEq

/-- `Package.__new__` (commands.py lines 93-100): `assert action in
cls.packages` (the keys are exactly `install` and `remove`), then merge
the positional names into the accumulator set for that action.  All
construction sites share the one accumulator, threaded here as explicit
state; the `assert` runs before the merge, so a rejected construction
returns an error without producing an updated accumulator. -/
def Package.new (s : PkgSets) (names : List String) (action : String) :
    Except PyErr PkgSets :=
  if action = "install" then .ok { s with install := s.install ∪ names.toFinset }
  else if action = "remove" then .ok { s with remove := s.remove ∪ names.toFinset }
  else .error .assertionError

/-- A whole sequence of `Package` construction calls: names plus the
`action` keyword (the source default action is `install`). -/
structure PkgCall where
  names : List String
  action : String

/-- Run a list of `Package` constructions left to right against the
shared accumulator, stopping at the first failed `assert`. -/
def Package.newMany (calls : List PkgCall) (s : PkgSets) : Except PyErr PkgSets :=
  match calls with
  | [] => .ok s
  | c :: rest =>
    match Package.new s c.names c.action with
    | .ok sNext => Package.newMany rest sNext
    | .error e => .error e

/-- `Package.validate` (commands.py lines 116-119): the intersection of
the two sets; raise a `ValidationError` naming it iff it is non-empty. -/
def Package.validate (s : PkgSets) : Option (Finset String) :=
  let dup := s.install ∩ s.remove
  if dup = ∅ then none else some dup

/-- The body of `Package.do` (commands.py lines 103-114): for `remove`
then `install`, if the set is non-empty invoke the shim once with
`pacman <flags> <sorted names>`; report `Ok(changed=False)`. -/
def Package.doBody (s : PkgSets) : List (List String) × Result :=
  ((if s.remove = ∅ then [] else [["pacman", "-Rs"] ++ s.remove.sort (· ≤ ·)])
     ++ (if s.install = ∅ then [] else [["pacman", "-S"] ++ s.install.sort (· ≤ ·)]),
   Result.Ok false)

/-- The state of the `lru_cache(maxsize=1)` wrapper around the `async def
do` (commands.py line 102).  What the cache stores is the coroutine
object produced by the first call, not a `Result`: `empty` = no call yet,
`unawaited` = the coroutine is cached but its body has not run,
`consumed` = the cached coroutine has already been awaited. -/
inductive CoroCache where
  | empty
  | unawaited
  | consumed
  deriving DecidableEq, Repr

/-- One full `await pkg.do()` on the shared handle: the `lru_cache` call
creates the coroutine only when the cache is empty, and awaiting runs the
body exactly when that coroutine was not yet consumed; awaiting the
already-consumed coroutine raises `RuntimeError` and invokes no shim. -/
def Package.execOnce (s : PkgSets) (c : CoroCache) :
    CoroCache × (Except PyErr Result × List (List String)) :=
  match c with
  | .consumed => (.consumed, (.error .runtimeErrorReuse, []))
  | _ => (.consumed, (.ok (Package.doBody s).2, (Package.doBody s).1))

/-- `n` sequential `await pkg.do()` invocations, collecting each outcome
and its shim trace. -/
def Package.execSeq (s : PkgSets) : Nat → CoroCache → List (Except PyErr Result × List (List String))
  | 0, _ => []
  | n + 1, c =>
    let step := Package.execOnce s c
    step.2 :: Package.execSeq s n step.1

/-- `Service.do` (commands.py lines 132-146), parametrised by the
outcomes of the `do` coroutines of the two sub-commands (each an exception or
an optional `Result`).  The body awaits `config.do()`, then `file.do()`,
then invokes the shim with `systemctl <action> <name>`; it then reads
`config_result.changed`, which is a `bool` only when the config outcome
was an `Ok` — on an `Error` namedtuple or on `None` that attribute read
raises `AttributeError`.  When `changed` is true the shim is invoked with
`systemctl reload <name>`; the return value of the body itself is
`Ok(changed=False)`. -/
def Service.execute (name action : String)
    (configOut fileOut : Except PyErr (Option Result)) :
    List (List String) × Except PyErr Result :=
  match configOut with
  | .error e => ([], .error e)
  | .ok configRes =>
    match fileOut with
    | .error e => ([], .error e)
    | .ok _ =>
      let t0 := [["systemctl", action, name]]
      match configRes with
      | some (Result.Ok changed) =>
        if changed then (t0 ++ [["systemctl", "reload", name]], .ok (Result.Ok false))
        else (t0, .ok (Result.Ok false))
      | _ => (t0, .error .attributeErrorChanged)

/-- A top-level command as the engine of `test.py` sees it in the
validate phase: just the outcome of its `validate()` call (`some msg`
models a raised `ValidationError`). -/
structure ECmd where
  validateResult : Option String
  deriving DecidableEq, Repr

/-- The validation loop of test.py lines 17-22, carrying the position of
the command being validated: try `command.validate()` on every command in
list order and append `(command, error)` for each raised
`ValidationError`, never stopping early. -/
def collectErrorsFrom : Nat → List ECmd → List (Nat × String)
  | _, [] => []
  | i, c :: rest =>
    match c.validateResult with
    | some p => (i, p) :: collectErrorsFrom (i + 1) rest
    | none => collectErrorsFrom (i + 1) rest

/-- The two-phase engine of test.py lines 17-31: collect every validation
problem; if any exist, report them all and exit (`raise SystemExit`)
before any `do()` is created, otherwise gather `do()` for every command.
Returns the reported `(index, problem)` pairs and the indices of the
commands whose `do()` the execute phase launches. -/
def engineRun (cmds : List ECmd) : List (Nat × String) × List Nat :=
  if (collectErrorsFrom 0 cmds).isEmpty then ([], List.range cmds.length)
  else (collectErrorsFrom 0 cmds, [])

/-- The set-union of all names passed with the given action across a
sequence of `Package` construction calls. -/
def unionNames (action : String) : List PkgCall → Finset String
  | [] => ∅
  | c :: rest => (if c.action = action then c.names.toFinset else ∅) ∪ unionNames action rest

lemma newMany_ok (calls : List PkgCall)
    (h : ∀ c ∈ calls, c.action = "install" ∨ c.action = "remove") (s : PkgSets) :
    Package.newMany calls s =
      .ok ⟨s.install ∪ unionNames "install" calls, s.remove ∪ unionNames "remove" calls⟩ := by
  induction calls generalizing s with
  | nil => simp [Package.newMany, unionNames]
  | cons c rest ih =>
    have hrest : ∀ d ∈ rest, d.action = "install" ∨ d.action = "remove" :=
      fun d hd => h d (List.mem_cons_of_mem _ hd)
    have hne : ("install" : String) ≠ "remove" := by decide
    rcases h c (List.mem_cons_self c rest) with hc | hc
    · have hnew : Package.new s c.names c.action =
          .ok ⟨s.install ∪ c.names.toFinset, s.remove⟩ := by
        rw [hc]
        rfl
      have hu1 : unionNames "install" (c :: rest) =
          c.names.toFinset ∪ unionNames "install" rest := by
        rw [unionNames, hc]
        simp
      have hu2 : unionNames "remove" (c :: rest) = unionNames "remove" rest := by
        rw [unionNames, hc]
        simp [hne]
      rw [Package.newMany, hnew]
      show Package.newMany rest ⟨s.install ∪ c.names.toFinset, s.remove⟩ =
        Except.ok ⟨s.install ∪ unionNames "install" (c :: rest),
          s.remove ∪ unionNames "remove" (c :: rest)⟩
      rw [ih hrest, hu1, hu2]
      simp [Finset.union_assoc]
    · have hnew : Package.new s c.names c.action =
          .ok ⟨s.install, s.remove ∪ c.names.toFinset⟩ := by
        rw [hc]
        rfl
      have hu1 : unionNames "install" (c :: rest) = unionNames "install" rest := by
        rw [unionNames, hc]
        simp [hne.symm]
      have hu2 : unionNames "remove" (c :: rest) =
          c.names.toFinset ∪ unionNames "remove" rest := by
        rw [unionNames, hc]
        simp
      rw [Package.newMany, hnew]
      show Package.newMany rest ⟨s.install, s.remove ∪ c.names.toFinset⟩ =
        Except.ok ⟨s.install ∪ unionNames "install" (c :: rest),
          s.remove ∪ unionNames "remove" (c :: rest)⟩
      rw [ih hrest, hu1, hu2]
      simp [Finset.union_assoc]

lemma unionNames_perm (a : String) {l₁ l₂ : List PkgCall} (hp : l₁.Perm l₂) :
    unionNames a l₁ = unionNames a l₂ := by
  induction hp with
  | nil => rfl
  | cons x _ ih => simp [unionNames, ih]
  | swap x y l =>
    simp only [unionNames]
    exact Finset.union_left_comm _ _ _
  | trans _ _ ih₁ ih₂ => exact ih₁.trans ih₂

/-- Claim C2: the merged install set (respectively remove set) observed at
execution equals the set-union of all names passed with action `install`
(respectively `remove`), independent of the order of the construction
calls (and of how many handles are created — all constructions thread the
one shared accumulator). -/
theorem package_merge_is_union (calls other : List PkgCall)
    (h : ∀ c ∈ calls, c.action = "install" ∨ c.action = "remove")
    (hp : calls.Perm other) :
    Package.newMany calls ⟨∅, ∅⟩ =
        .ok ⟨unionNames "install" calls, unionNames "remove" calls⟩ ∧
      unionNames "install" calls = unionNames "install" other ∧
      unionNames "remove" calls = unionNames "remove" other := by
  refine ⟨?_, unionNames_perm _ hp, unionNames_perm _ hp⟩
  simpa using newMany_ok calls h ⟨∅, ∅⟩

/-- Witness for C2 at the example from the spec: the constructions
`Package("a","b")` (default action install) and
`Package("b","c", action=install)` merge into the single install set
containing exactly a, b and c. -/
theorem package_merge_is_union_witness :
    Package.newMany [⟨["a", "b"], "install"⟩, ⟨["b", "c"], "install"⟩] ⟨∅, ∅⟩ =
      .ok ⟨{"a", "b", "c"}, ∅⟩ := by
  have h := package_merge_is_union
    [⟨["a", "b"], "install"⟩, ⟨["b", "c"], "install"⟩]
    [⟨["b", "c"], "install"⟩, ⟨["a", "b"], "install"⟩]
    (by decide) (List.Perm.swap _ _ _)
  rw [h.1]
  decide

/-- Claim C7: `Package.validate` reports no problem iff the intersection
of the install set and the remove set is empty, and a reported problem
names exactly that intersection. -/
theorem package_validate_names_intersection (s : PkgSets) :
    (Package.validate s = none ↔ s.install ∩ s.remove = ∅) ∧
      ∀ d ∈ Package.validate s, d = s.install ∩ s.remove := by
  unfold Package.validate
  by_cases h : s.install ∩ s.remove = ∅ <;> simp [h]

/-- Witness for C7: with install {a, b} and remove {b, c} the reported
problem names exactly {b}; with disjoint sets no problem is reported. -/
theorem package_validate_names_intersection_witness :
    Package.validate ⟨{"a"}, {"b"}⟩ = none ∧
      ∀ d ∈ Package.validate ⟨{"a", "b"}, {"b", "c"}⟩, d = {"b"} := by
  constructor
  · exact (package_validate_names_intersection ⟨{"a"}, {"b"}⟩).1.mpr (by decide)
  · intro d hd
    have h := (package_validate_names_intersection ⟨{"a", "b"}, {"b", "c"}⟩).2 d hd
    rw [h]
    decide

/-- Claim C10: a `Package` construction whose action is neither install
nor remove fails the `assert` before touching the accumulator (no updated
accumulator state is produced), and every construction with one of the
two legal actions succeeds. -/
theorem package_new_action_guard (s : PkgSets) (names : List String) (action : String) :
    (action ≠ "install" → action ≠ "remove" →
        Package.new s names action = .error .assertionError) ∧
      (action = "install" ∨ action = "remove" →
        ∃ sNext, Package.new s names action = .ok sNext) := by
  constructor
  · intro h1 h2
    simp [Package.new, h1, h2]
  · rintro (h | h) <;> subst h
    · exact ⟨_, rfl⟩
    · exact ⟨_, rfl⟩

/-- Witness for C10: action upgrade is rejected, action remove accepted. -/
theorem package_new_action_guard_witness :
    Package.new ⟨∅, ∅⟩ ["a"] "upgrade" = .error .assertionError ∧
      ∃ sNext, Package.new ⟨∅, ∅⟩ ["a"] "remove" = .ok sNext :=
  ⟨(package_new_action_guard ⟨∅, ∅⟩ ["a"] "upgrade").1 (by decide) (by decide),
    (package_new_action_guard ⟨∅, ∅⟩ ["a"] "remove").2 (Or.inr rfl)⟩

/-- Claim C9: constructing a `File` with a relative destination fails the
construction-time `assert` (before any validate or execute phase can
run), while an absolute destination constructs successfully. -/
theorem file_relative_destination_rejected (d : String) (src : Option String) :
    ((parsePath d).absolute = false → File.init d src = .error .assertionError) ∧
      ((parsePath d).absolute = true → ∃ f, File.init d src = .ok f) := by
  constructor
  · intro h
    simp [File.init, h]
  · intro h
    refine ⟨{ destination := parsePath d,
              source := match src with
                | none => parsePath (parsePath d).name
                | some s => parsePath s }, ?_⟩
    simp [File.init, h]

/-- Witness for C9: relative destination `foo` is rejected at
construction; absolute destination `/foo/bar` is accepted. -/
theorem file_relative_destination_rejected_witness :
    File.init "foo" none = .error .assertionError ∧
      ∃ f, File.init "/foo/bar" none = .ok f :=
  ⟨(file_relative_destination_rejected "foo" none).1 (by decide),
    (file_relative_destination_rejected "/foo/bar" none).2 (by decide)⟩

/-- Claim C8: a `File` constructed with an absolute destination and no
source resolves the source to the base name of the destination, and its
execution invokes the shim with argv `cp <source> <destination>` in that
order and returns `Ok(changed=True)`. -/
theorem file_default_source_is_basename (d : String) (h : (parsePath d).absolute = true) :
    ∃ f, File.init d none = .ok f ∧
      f.destination = parsePath d ∧
      f.source = parsePath (parsePath d).name ∧
      File.execute f =
        ([["cp", (parsePath (parsePath d).name).str, (parsePath d).str]], Result.Ok true) := by
  exact ⟨{ destination := parsePath d, source := parsePath (parsePath d).name },
    by simp [File.init, h], rfl, rfl, rfl⟩

/-- Witness for C8 at the example from the spec: destination `/a/b` gives
source `b` and the shim argv `cp b /a/b`. -/
theorem file_default_source_is_basename_witness :
    ∃ f, File.init "/a/b" none = .ok f ∧ f.source.str = "b" ∧
      File.execute f = ([["cp", "b", "/a/b"]], Result.Ok true) := by
  obtain ⟨f, h1, _, h3, h4⟩ := file_default_source_is_basename "/a/b" (by decide)
  refine ⟨f, h1, ?_, ?_⟩
  · rw [h3]
    decide
  · rw [h4]
    decide

lemma collectErrorsFrom_eq (i : Nat) (cmds : List ECmd) :
    collectErrorsFrom i cmds =
      (cmds.enumFrom i).filterMap fun p => p.2.validateResult.map fun m => (p.1, m) := by
  induction cmds generalizing i with
  | nil => rfl
  | cons c rest ih =>
    cases h : c.validateResult <;> simp [collectErrorsFrom, h, List.enumFrom, ih]

/-- Claim C3: the engine calls `validate()` on every command in list
order without stopping at the first failure — the collected report is
exactly the in-order list of `(position, problem)` pairs — and if any
problem was collected the run terminates executing nothing, while a
problem-free batch launches `execute()` for every command. -/
theorem engine_collects_all_then_aborts (cmds : List ECmd) :
    (engineRun cmds).1 =
        (cmds.enum.filterMap fun p => p.2.validateResult.map fun m => (p.1, m)) ∧
      ((engineRun cmds).1 ≠ [] → (engineRun cmds).2 = []) ∧
      ((engineRun cmds).1 = [] → (engineRun cmds).2 = List.range cmds.length) := by
  have hc := collectErrorsFrom_eq 0 cmds
  by_cases he : (collectErrorsFrom 0 cmds).isEmpty
  · have hnil : collectErrorsFrom 0 cmds = [] := by
      simpa using he
    simp [engineRun, he, List.enum, ← hc, hnil]
  · have hnil : ¬ collectErrorsFrom 0 cmds = [] := by
      simpa using he
    simp [engineRun, he, List.enum, ← hc, hnil]

/-- Witness for C3 at the example from the spec: in a five-command batch
where exactly the second and the fifth command fail validation, exactly
those two problems are reported and nothing is executed. -/
theorem engine_collects_all_then_aborts_witness :
    (engineRun [⟨none⟩, ⟨some "problem2"⟩, ⟨none⟩, ⟨none⟩, ⟨some "problem5"⟩]).1 =
        [(1, "problem2"), (4, "problem5")] ∧
      (engineRun [⟨none⟩, ⟨some "problem2"⟩, ⟨none⟩, ⟨none⟩, ⟨some "problem5"⟩]).2 = [] := by
  have h := engine_collects_all_then_aborts
    [⟨none⟩, ⟨some "problem2"⟩, ⟨none⟩, ⟨none⟩, ⟨some "problem5"⟩]
  refine ⟨h.1.trans (by decide), h.2.1 ?_⟩
  rw [h.1]
  decide

/-- Claim C5 (code bug): on a declared path that exists, `Check.do`
returns `Ok(changed=False)` as the claim states; but on a declared path
that does not exist the body executes `return Error(reason)` where
`reason` is an unbound name, so it raises `NameError` instead of
returning `Failed` with the declared reason. -/
theorem check_missing_path_raises_nameerror :
    Check.execute (Check.init (some "/present") (some "because")) (fun _ => true) =
        .ok (some (Result.Ok false)) ∧
      Check.execute (Check.init (some "/nonexistent") (some "because")) (fun _ => false) =
        .error .nameErrorReason := by
  exact ⟨rfl, rfl⟩

/-- Claim C4 (code bug): the systemctl action always follows the two
sub-executions, and a config result `Ok(changed=True)` triggers the
reload while `Ok(changed=False)` does not, as the claim states; but when
the config result is `Failed` (an `Error` value, which has no `changed`
field) — or `None`, as produced by the default `Nothing` config — the
attribute read `config_result.changed` raises `AttributeError` after the
systemctl action, so the reload is skipped by crashing and no
`Ok(changed=False)` result is ever produced. -/
theorem service_crashes_on_failed_config :
    Service.execute "s1" "enable" (.ok (some (Result.Ok true))) (.ok none) =
        ([["systemctl", "enable", "s1"], ["systemctl", "reload", "s1"]], .ok (Result.Ok false)) ∧
      Service.execute "s1" "enable" (.ok (some (Result.Ok false))) (.ok none) =
        ([["systemctl", "enable", "s1"]], .ok (Result.Ok false)) ∧
      Service.execute "s1" "enable" (.ok (some (Result.Error "boom"))) (.ok none) =
        ([["systemctl", "enable", "s1"]], .error .attributeErrorChanged) ∧
      Service.execute "s1" "enable" (.ok none) (.ok none) =
        ([["systemctl", "enable", "s1"]], .error .attributeErrorChanged) := by
  exact ⟨rfl, rfl, rfl, rfl⟩

/-- Counterexample for C1: with install set {a}, the first sequential
execution performs the batched action and returns `Ok(changed=False)`,
but the second sequential execution does not return that cached Result —
the `lru_cache` cached the coroutine object, and awaiting it again raises
`RuntimeError`. -/
theorem package_second_execute_not_cached_result :
    Package.execSeq ⟨{"a"}, ∅⟩ 2 CoroCache.empty =
      [(.ok (Result.Ok false), [["pacman", "-S", "a"]]),
       (.error .runtimeErrorReuse, [])] := by
  simp [Package.execSeq, Package.execOnce, Package.doBody]

/-- Claim C1 amended: over any number of sequential executions, the host
action runs at most once — the first execution invokes the shim once per
action class (remove then install, each only if its set is non-empty,
with sorted name lists) and returns `Ok(changed=False)`; every later
sequential execution invokes no shim and raises `RuntimeError` (the
cached coroutine is already consumed) instead of returning the cached
Result. -/
theorem package_executes_host_action_at_most_once (s : PkgSets) (n : Nat) :
    Package.execSeq s (n + 1) CoroCache.empty =
      (.ok (Result.Ok false),
          (if s.remove = ∅ then [] else [["pacman", "-Rs"] ++ s.remove.sort (· ≤ ·)]) ++
            (if s.install = ∅ then [] else [["pacman", "-S"] ++ s.install.sort (· ≤ ·)]))
        :: List.replicate n (.error .runtimeErrorReuse, []) := by
  have hcons : ∀ m, Package.execSeq s m CoroCache.consumed =
      List.replicate m (.error .runtimeErrorReuse, []) := by
    intro m
    induction m with
    | zero => rfl
    | succ k ih => simp [Package.execSeq, Package.execOnce, ih, List.replicate]
  simp [Package.execSeq, Package.execOnce, Package.doBody, hcons n]

/-- Witness for the amended C1: three sequential executions with remove
set {z}: the batched action runs only in the first execution, and both
later executions raise instead of returning the cached Result. -/
theorem package_executes_host_action_at_most_once_witness :
    Package.execSeq ⟨∅, {"z"}⟩ 3 CoroCache.empty =
      (.ok (Result.Ok false), [["pacman", "-Rs", "z"]])
        :: List.replicate 2 (.error .runtimeErrorReuse, []) := by
  have h := package_executes_host_action_at_most_once ⟨∅, {"z"}⟩ 2
  rw [h]
  simp

/-- Counterexample for C6: the `Nothing` command (the NoOp default for
`Service` sub-commands) produces no Result at all from its execution —
its body is `pass`, returning `None` — falsifying the claim that every
command execution produces an `Ok` or `Failed` value. -/
theorem nothing_execute_produces_no_result :
    Nothing.execute = .ok (none : Option Result) ∧
      ¬ ∃ r : Result, Nothing.execute = .ok (some r) :=
  ⟨rfl, fun ⟨_, hr⟩ => by simp [Nothing.execute] at hr⟩

/-- Claim C6 amended: whenever an execution returns a Result it is `Ok`
or `Failed`, but not every execution returns one — `File` always returns
`Ok(changed=True)`; `User` and the first `Package` execution return
`Ok(changed=False)`; `Service` returns `Ok(changed=False)` whenever its
config outcome is an `Ok`; `Check` returns `Ok(changed=False)` on an
existing declared path; but `Nothing` and a pathless `Check` produce the
absent outcome `None`, and `Check` on a missing declared path raises
`NameError`. -/
theorem result_shapes_by_variant
    (f : File) (u : User) (s : PkgSets) (c : Check) (pe : PyPath → Bool)
    (nm act : String) :
    (File.execute f).2 = Result.Ok true ∧
      (User.execute u).2 = Result.Ok false ∧
      (Package.execOnce s CoroCache.empty).2.1 = .ok (Result.Ok false) ∧
      Nothing.execute = .ok none ∧
      (c.existsPath = none → Check.execute c pe = .ok none) ∧
      (∀ p, c.existsPath = some p → pe p = true →
        Check.execute c pe = .ok (some (Result.Ok false))) ∧
      (∀ p, c.existsPath = some p → pe p = false →
        Check.execute c pe = .error .nameErrorReason) ∧
      (∀ b fr, (Service.execute nm act (.ok (some (Result.Ok b))) (.ok fr)).2 =
        .ok (Result.Ok false)) := by
  refine ⟨rfl, rfl, rfl, rfl, ?_, ?_, ?_, ?_⟩
  · intro h
    simp [Check.execute, h]
  · intro p hp hpe
    simp [Check.execute, hp, hpe]
  · intro p hp hpe
    simp [Check.execute, hp, hpe]
  · intro b fr
    cases b <;> rfl

/-- Witness for the amended C6, evaluated at concrete commands. -/
theorem result_shapes_by_variant_witness :
    (File.execute ⟨parsePath "/a/b", parsePath "b"⟩).2 = Result.Ok true ∧
      Check.execute ⟨some (parsePath "/x"), none⟩ (fun _ => false) = .error .nameErrorReason ∧
      Check.execute ⟨none, none⟩ (fun _ => false) = .ok none ∧
      (Service.execute "s1" "enable" (.ok (some (Result.Ok true))) (.ok none)).2 =
        .ok (Result.Ok false) := by
  have h := result_shapes_by_variant ⟨parsePath "/a/b", parsePath "b"⟩
    ⟨"bob", true, true⟩ ⟨{"a"}, ∅⟩ ⟨some (parsePath "/x"), none⟩ (fun _ => false)
    "s1" "enable"
  have h2 := result_shapes_by_variant ⟨parsePath "/a/b", parsePath "b"⟩
    ⟨"bob", true, true⟩ ⟨{"a"}, ∅⟩ ⟨none, none⟩ (fun _ => false)
    "s1" "enable"
  exact ⟨h.1, h.2.2.2.2.2.2.1 (parsePath "/x") rfl rfl, h2.2.2.2.2.1 rfl,
    h.2.2.2.2.2.2.2 true none⟩

end Dostuff
